import Mathlib

set_option linter.unusedVariables false

/-!
# Verification of the gemini-mcp session and conversation-library manager

This file shallowly embeds the TypeScript sources of the gemini-mcp server
(`src/tools/handlers.ts`, `src/library/conversation-library.ts`, `src/config.ts`)
into Lean and proves the specified properties about them.  Components whose
implementation is not part of the provided sources (the session manager, the
auth manager and the cleanup manager, which `handlers.ts` calls into) are
modelled from the specification; each such definition carries a doc comment
starting with `Modelled from the spec:`.

Conventions: JavaScript strings are Lean `String`s, timestamps are passed in
explicitly (`now`), mutable class state is passed as explicit state values,
and fallible operations return `Except`/`Option`.
-/

/-! ## JavaScript string primitives -/

/-- JS `String.prototype.trimEnd` on the character list: drop trailing whitespace. -/
def trimEndData (l : List Char) : List Char :=
  (l.reverse.dropWhile Char.isWhitespace).reverse

/-- JS `String.prototype.trimEnd`. -/
def jsTrimEnd (s : String) : String :=
  String.mk (trimEndData s.data)

/-- JS `String.prototype.includes`: true iff `pat` occurs contiguously in `s`. -/
def containsSubstr (s pat : String) : Bool :=
  (List.range (s.data.length + 1)).any (fun i => pat.data.isPrefixOf (s.data.drop i))

/-- JS string truthiness of an optional string argument: `undefined` and `""` are falsy. -/
def strTruthy : Option String → Bool
  | none => false
  | some s => s != ""

/-- JS `input.x || old` for an optional string field: an absent or empty string keeps `old`. -/
def jsStrOverride (o : Option String) (old : String) : String :=
  match o with
  | none => old
  | some s => if s == "" then old else s

/-- JS `input.x || old` for an optional array field: any present array (even empty) wins. -/
def jsArrOverride (o : Option (List String)) (old : List String) : List String :=
  o.getD old

/-- Decimal digit characters of a natural number, most significant first.
This is what `Nat.repr` produces (see `repr_eq_natDigits` below). -/
def natDigits (n : Nat) : List Char :=
  if h : n / 10 = 0 then [Nat.digitChar (n % 10)]
  else natDigits (n / 10) ++ [Nat.digitChar (n % 10)]
termination_by n
decreasing_by
  exact Nat.div_lt_self (Nat.pos_of_ne_zero fun hn => h (by simp [hn])) (by decide)

/-- Evaluate a decimal digit character list back to the number it denotes. -/
def evalDigits (l : List Char) : Nat :=
  l.foldl (fun a c => 10 * a + (c.toNat - 48)) 0

/-! ## Conversation library data model (src/library/types.ts) -/

/-- A single conversation entry in the library (`ConversationEntry`). -/
structure ConversationEntry where
  id : String
  url : String
  name : String
  description : String
  topics : List String
  content_types : List String
  use_cases : List String
  added_at : String
  last_used : String
  use_count : Nat
  tags : List String
deriving Repr, DecidableEq

/-- The complete conversation library (`Library`). -/
structure Library where
  conversations : List ConversationEntry
  active_conversation_id : Option String
  last_modified : String
  version : String
deriving Repr, DecidableEq

/-- Input for adding a new conversation (`AddConversationInput`); optional
fields are `Option`s. -/
structure AddConversationInput where
  url : String
  name : String
  description : String
  topics : List String
  content_types : Option (List String)
  use_cases : Option (List String)
  tags : Option (List String)
deriving Repr, DecidableEq

/-- Input for updating a conversation (`UpdateConversationInput`). -/
structure UpdateConversationInput where
  id : String
  name : Option String
  description : Option String
  topics : Option (List String)
  content_types : Option (List String)
  use_cases : Option (List String)
  tags : Option (List String)
  url : Option String
deriving Repr, DecidableEq

/-- The ids of all conversations in the library, in order. -/
def libIds (lib : Library) : List String :=
  lib.conversations.map (fun n => n.id)

/-- An empty library (no conversations, no active id). -/
def emptyLibrary : Library :=
  { conversations := [], active_conversation_id := none,
    last_modified := "", version := "1.0.0" }

/-! ## Conversation library operations (src/library/conversation-library.ts) -/

/-- Characters kept by the slug regex `[a-z0-9]`. -/
def isSlugChar (c : Char) : Bool :=
  (decide ('a' ≤ c) && decide (c ≤ 'z')) || (decide ('0' ≤ c) && decide (c ≤ '9'))

/-- JS `replace` of `[^a-z0-9]+` (global) by a dash: each maximal run of
non-slug characters becomes a single dash. -/
def collapseNonSlug : List Char → List Char
  | [] => []
  | c :: cs =>
    if isSlugChar c then c :: collapseNonSlug cs
    else '-' :: collapseNonSlug (cs.dropWhile (fun d => !isSlugChar d))
termination_by l => l.length
decreasing_by
  · simp
  · have hle := (List.dropWhile_sublist (p := fun d => !isSlugChar d) (l := cs)).length_le
    simp only [List.length_cons]
    omega

/-- The slug base in `generateId`: lowercase, collapse non-alphanumeric runs to
dashes, strip leading/trailing dashes, truncate to 30 characters. -/
def slugBase (name : String) : String :=
  let collapsed := collapseNonSlug name.toLower.data
  let stripped :=
    ((collapsed.dropWhile (fun c => c == '-')).reverse.dropWhile (fun c => c == '-')).reverse
  String.mk (stripped.take 30)

/-- The uniqueness loop of `generateId`: starting at `counter`, try
`base-counter`, `base-(counter+1)`, ... until an id not present in
`conversations` is found.  `fuel` bounds the recursion; `generateId` supplies
enough fuel for the loop to reach a free candidate (see `generateIdAux_fresh`). -/
def generateIdAux (conversations : List ConversationEntry) (base : String) :
    Nat → Nat → String
  | counter, 0 => base ++ "-" ++ Nat.repr counter
  | counter, fuel + 1 =>
    let id := base ++ "-" ++ Nat.repr counter
    if conversations.any (fun n => n.id == id) then
      generateIdAux conversations base (counter + 1) fuel
    else id

/-- `generateId`: derive a slug from `name` and, while it collides with an
existing id, append `-1`, `-2`, ... until it is unique. -/
def generateId (conversations : List ConversationEntry) (name : String) : String :=
  let base := slugBase name
  if conversations.any (fun n => n.id == base) then
    generateIdAux conversations base 1 (conversations.length + 1)
  else base

/-- `getConversation`: first conversation with the given id, if any. -/
def getConversation (lib : Library) (id : String) : Option ConversationEntry :=
  lib.conversations.find? (fun n => n.id == id)

/-- `getActiveConversation`: the entry named by `active_conversation_id`, if any. -/
def getActiveConversation (lib : Library) : Option ConversationEntry :=
  match lib.active_conversation_id with
  | none => none
  | some id => getConversation lib id

/-- Replace the first element satisfying `p` by its image under `f`
(the `findIndex` + index-assignment pattern used throughout the library). -/
def updateFirst {α : Type} (p : α → Bool) (f : α → α) : List α → List α
  | [] => []
  | x :: xs => if p x then f x :: xs else x :: updateFirst p f xs

/-- `addConversation`: generate an id, build the entry (with the defaults for
the optional fields), append it, and set it active when it is the sole entry. -/
def addConversation (now : String) (input : AddConversationInput) (lib : Library) :
    ConversationEntry × Library :=
  let id := generateId lib.conversations input.name
  let conversation : ConversationEntry :=
    { id := id
      url := input.url
      name := input.name
      description := input.description
      topics := input.topics
      content_types := input.content_types.getD ["documentation", "examples"]
      use_cases := input.use_cases.getD
        ["Learning about " ++ input.name, "Implementing features with " ++ input.name]
      added_at := now
      last_used := now
      use_count := 0
      tags := input.tags.getD [] }
  let conversations := lib.conversations ++ [conversation]
  let active :=
    if conversations.length == 1 then some id else lib.active_conversation_id
  (conversation,
   { lib with conversations := conversations, active_conversation_id := active,
              last_modified := now })

/-- `selectConversation`: throw on an unknown id, otherwise set it active and
refresh the entry's `last_used` timestamp. -/
def selectConversation (now id : String) (lib : Library) :
    Except String (ConversationEntry × Library) :=
  match getConversation lib id with
  | none => Except.error ("Conversation not found: " ++ id)
  | some conversation =>
    let entry := { conversation with last_used := now }
    let conversations := updateFirst (fun n => n.id == id) (fun _ => entry) lib.conversations
    Except.ok (entry,
      { lib with conversations := conversations, active_conversation_id := some id,
                 last_modified := now })

/-- The merged entry built by `updateConversation`: each provided field
overrides the old one, with JS truthiness for the string fields. -/
def applyUpdate (input : UpdateConversationInput) (conversation : ConversationEntry) :
    ConversationEntry :=
  { conversation with
    name := jsStrOverride input.name conversation.name
    description := jsStrOverride input.description conversation.description
    topics := jsArrOverride input.topics conversation.topics
    content_types := jsArrOverride input.content_types conversation.content_types
    use_cases := jsArrOverride input.use_cases conversation.use_cases
    tags := jsArrOverride input.tags conversation.tags
    url := jsStrOverride input.url conversation.url }

/-- `updateConversation`: throw on an unknown id, otherwise merge the provided
fields into the entry (the id itself is never changed). -/
def updateConversation (now : String) (input : UpdateConversationInput) (lib : Library) :
    Except String (ConversationEntry × Library) :=
  match getConversation lib input.id with
  | none => Except.error ("Conversation not found: " ++ input.id)
  | some conversation =>
    let entry := applyUpdate input conversation
    let conversations :=
      updateFirst (fun n => n.id == input.id) (fun _ => entry) lib.conversations
    Except.ok (entry,
      { lib with conversations := conversations, last_modified := now })

/-- `removeConversation`: drop the entry with the given id; if it was active,
make the first remaining conversation active (or none). -/
def removeConversation (now id : String) (lib : Library) : Bool × Library :=
  match getConversation lib id with
  | none => (false, lib)
  | some _ =>
    let conversations := lib.conversations.filter (fun n => !(n.id == id))
    let active :=
      if lib.active_conversation_id == some id then
        match conversations with
        | [] => none
        | c :: _ => some c.id
      else lib.active_conversation_id
    (true,
     { lib with conversations := conversations, active_conversation_id := active,
                last_modified := now })

/-- `incrementUseCount`: bump `use_count` and refresh `last_used` of the entry
with the given id; `none` when the id is unknown. -/
def incrementUseCount (now id : String) (lib : Library) :
    Option ConversationEntry × Library :=
  match getConversation lib id with
  | none => (none, lib)
  | some conversation =>
    let updatedConversation :=
      { conversation with use_count := conversation.use_count + 1, last_used := now }
    let conversations :=
      updateFirst (fun n => n.id == id) (fun _ => updatedConversation) lib.conversations
    (some updatedConversation,
     { lib with conversations := conversations, last_modified := now })

/-- One public library operation, with its timestamp. -/
inductive LibOp where
  | add (now : String) (input : AddConversationInput)
  | select (now id : String)
  | update (now : String) (input : UpdateConversationInput)
  | remove (now id : String)
  | incUse (now id : String)
deriving Repr

/-- The library state after one public operation (unchanged when the
operation throws or reports not-found). -/
def applyOp (lib : Library) : LibOp → Library
  | LibOp.add now input => (addConversation now input lib).2
  | LibOp.select now id =>
    match selectConversation now id lib with
    | Except.ok (_, lib2) => lib2
    | Except.error _ => lib
  | LibOp.update now input =>
    match updateConversation now input lib with
    | Except.ok (_, lib2) => lib2
    | Except.error _ => lib
  | LibOp.remove now id => (removeConversation now id lib).2
  | LibOp.incUse now id => (incrementUseCount now id lib).2

/-- The library state after a sequence of public operations. -/
def applyOps (lib : Library) (ops : List LibOp) : Library :=
  ops.foldl applyOp lib

/-- The invariant of claim C9, as a decidable check: the active conversation
id, when set, names a conversation present in the library. -/
def activeValidB (lib : Library) : Bool :=
  match lib.active_conversation_id with
  | none => true
  | some id => decide (id ∈ libIds lib)

/-! ## Session manager (modelled from the spec; the SessionManager module is
not part of the provided sources, only its callers in handlers.ts are) -/

/-- Session status (`idle | busy | closing | closed`). -/
inductive SessionStatus where
  | idle
  | busy
  | closing
  | closed
deriving Repr, DecidableEq

/-- Modelled from the spec: the per-session state tracked by the session
manager (id, creation/activity timestamps, message count, bound target URL,
status). -/
structure Session where
  id : String
  createdAt : Nat
  lastActivity : Nat
  messageCount : Nat
  geminiUrl : Option String
  status : SessionStatus
deriving Repr, DecidableEq

/-- Modelled from the spec: the session manager's registry and capacity
configuration (current sessions, configured maximum, idle timeout). -/
structure SMState where
  sessions : List Session
  maxSessions : Nat
  sessionTimeout : Nat
deriving Repr, DecidableEq

/-- Errors surfaced by the session manager. -/
inductive SMError where
  | ResourceExhausted
deriving Repr, DecidableEq

/-- Fold step selecting the session with the smaller `lastActivity`. -/
def olderOf (acc : Option Session) (s : Session) : Option Session :=
  match acc with
  | none => some s
  | some m => if s.lastActivity < m.lastActivity then some s else some m

/-- Modelled from the spec: the least-recently-active idle session
(minimal `lastActivity` among sessions with status `idle`), if any. -/
def lruIdle (sessions : List Session) : Option Session :=
  (sessions.filter (fun s => s.status == SessionStatus.idle)).foldl olderOf none

/-- Modelled from the spec: `SessionManager.getOrCreateSession`.  If `id?` is
given and a live session exists, mark activity (and update its target URL only
when explicitly overridden) and return it.  Otherwise, if the session count is
at or above the configured maximum, evict the least-recently-active idle
session, failing with `ResourceExhausted` when none is idle; then register a
new idle session (with a freshly generated id when none was supplied). -/
def getOrCreateSession (now : Nat) (freshId : String) (id? : Option String)
    (targetUrl : Option String) (st : SMState) : Except SMError (Session × SMState) :=
  match id?.bind (fun i => st.sessions.find? (fun s => s.id == i)) with
  | some existing =>
    let updated :=
      { existing with
        lastActivity := now
        geminiUrl := match targetUrl with
          | some u => some u
          | none => existing.geminiUrl }
    Except.ok (updated,
      { st with sessions :=
          updateFirst (fun s => s.id == existing.id) (fun _ => updated) st.sessions })
  | none =>
    let afterEviction : Option SMState :=
      if st.maxSessions ≤ st.sessions.length then
        match lruIdle st.sessions with
        | some victim =>
          some { st with sessions := st.sessions.filter (fun s => !(s.id == victim.id)) }
        | none => none
      else some st
    match afterEviction with
    | none => Except.error SMError.ResourceExhausted
    | some st2 =>
      let session : Session :=
        { id := id?.getD freshId, createdAt := now, lastActivity := now,
          messageCount := 0, geminiUrl := targetUrl, status := SessionStatus.idle }
      Except.ok (session, { st2 with sessions := st2.sessions ++ [session] })

/-- Modelled from the spec: the background sweep closes (removes from the
registry) exactly the sessions whose status is `idle` and whose idle duration
`now - lastActivity` has reached `sessionTimeout`. -/
def sweep (now : Nat) (st : SMState) : SMState :=
  { st with sessions :=
      st.sessions.filter (fun s =>
        !((s.status == SessionStatus.idle) &&
          decide (st.sessionTimeout ≤ now - s.lastActivity))) }

/-- Modelled from the spec: `SessionManager.closeSessionsForConversation`
closes every session whose bound target URL equals the given URL and returns
the count closed. -/
def closeSessionsForConversation (url : String) (st : SMState) : Nat × SMState :=
  ((st.sessions.filter (fun s => s.geminiUrl == some url)).length,
   { st with sessions := st.sessions.filter (fun s => !(s.geminiUrl == some url)) })

/-- Create sessions for each id in turn via `getOrCreateSession`
(the scenario of claim C1: M distinct creations). -/
def createSessions (ids : List String) (st : SMState) : Except SMError SMState :=
  ids.foldlM
    (fun acc i => (getOrCreateSession 0 i (some i) none acc).map (fun r => r.2)) st

/-- The fresh session registered by `getOrCreateSession` at time 0 for id `i`
with no target URL. -/
def mkFreshSession (i : String) : Session :=
  { id := i, createdAt := 0, lastActivity := 0, messageCount := 0,
    geminiUrl := none, status := SessionStatus.idle }

/-! ## Tool handlers (src/tools/handlers.ts) -/

/-- The follow-up reminder appended to every successful answer
(`FOLLOW_UP_REMINDER` in handlers.ts). -/
def FOLLOW_UP_REMINDER : String :=
  "\n\nEXTREMELY IMPORTANT: Is that ALL you need to know? You can always ask another question using the same session ID! Think about it carefully: before you reply to the user, review their original request and this answer. If anything is still unclear or missing, ask me another question first."

/-- A caught JS exception: whether it is an instance of `RateLimitError`,
plus its message. -/
structure JsError where
  isRateLimitError : Bool
  message : String
deriving Repr, DecidableEq

/-- The fixed prefix of the distinguished rate-limit error report in
`handleAskQuestion`. -/
def RATE_LIMIT_REPORT_PREFIX : String :=
  "Gemini App rate limit reached (50 queries/day for free accounts).\n\nYou can:\n1. Use the \x27re_auth\x27 tool to login with a different Google account\n2. Wait until tomorrow for the quota to reset\n3. Upgrade to Google AI Pro/Ultra for 5x higher limits\n\nOriginal error: "

/-- The rate-limit detection in `handleAskQuestion`'s catch block:
`error instanceof RateLimitError || errorMessage.toLowerCase().includes("rate limit")`. -/
def isRateLimitFailure (e : JsError) : Bool :=
  e.isRateLimitError || containsSubstr e.message.toLower "rate limit"

/-- The error string produced by `handleAskQuestion`'s catch block. -/
def catchAskError (e : JsError) : String :=
  if isRateLimitFailure e then RATE_LIMIT_REPORT_PREFIX ++ e.message
  else e.message

/-- Arguments of the `ask_question` tool that the embedded logic depends on. -/
structure AskArgs where
  question : String
  session_id : Option String
  conversation_id : Option String
  gemini_url : Option String
deriving Repr, DecidableEq

/-- The conversation-URL resolution at the start of `handleAskQuestion`:
an explicit (truthy) `gemini_url` wins; else a truthy `conversation_id` is
looked up in the library (throwing when absent); else the active library
conversation's URL is used when one is set; else the URL stays as given. -/
def resolveConversationUrl (now : String) (gemini_url conversation_id : Option String)
    (lib : Library) : Except String (Option String × Library) :=
  let resolvedConversationUrl := gemini_url
  if !strTruthy resolvedConversationUrl && strTruthy conversation_id then
    match conversation_id with
    | some cid =>
      match incrementUseCount now cid lib with
      | (none, _) => Except.error ("Conversation not found in library: " ++ cid)
      | (some conversation, lib2) => Except.ok (some conversation.url, lib2)
    | none => Except.ok (resolvedConversationUrl, lib)
  else if !strTruthy resolvedConversationUrl then
    match getActiveConversation lib with
    | some active =>
      match incrementUseCount now active.id lib with
      | (none, _) => Except.error ("Active conversation not found: " ++ active.id)
      | (some conversation, lib2) => Except.ok (some conversation.url, lib2)
    | none => Except.ok (resolvedConversationUrl, lib)
  else Except.ok (resolvedConversationUrl, lib)

/-- The data of a successful `ask_question` result that the claims speak
about. -/
structure AskSuccess where
  question : String
  answer : String
  session_id : String
  gemini_url : Option String
deriving Repr, DecidableEq

/-- An `ask_question` tool result. -/
structure AskOutcome where
  success : Bool
  error : Option String
  data : Option AskSuccess
deriving Repr, DecidableEq

/-- `handleAskQuestion`: resolve the conversation URL, get or create the
session, ask the question (its result is supplied as the oracle `askResult`),
and append `FOLLOW_UP_REMINDER` to the trimmed answer; any thrown error is
turned into a failure result by the catch block (`catchAskError`). -/
def handleAskQuestion (now : Nat) (nowIso : String) (freshId : String)
    (askResult : Except JsError String) (args : AskArgs) (lib : Library)
    (st : SMState) : AskOutcome × Library × SMState :=
  match resolveConversationUrl nowIso args.gemini_url args.conversation_id lib with
  | Except.error msg =>
    ({ success := false,
       error := some (catchAskError { isRateLimitError := false, message := msg }),
       data := none }, lib, st)
  | Except.ok (resolvedUrl, lib2) =>
    match getOrCreateSession now freshId args.session_id resolvedUrl st with
    | Except.error SMError.ResourceExhausted =>
      ({ success := false,
         error := some (catchAskError
           { isRateLimitError := false,
             message := "Maximum sessions reached. Close a session or raise the limit." }),
         data := none }, lib2, st)
    | Except.ok (session, st2) =>
      match askResult with
      | Except.error e =>
        ({ success := false, error := some (catchAskError e), data := none }, lib2, st2)
      | Except.ok rawAnswer =>
        let answer := jsTrimEnd rawAnswer ++ FOLLOW_UP_REMINDER
        ({ success := true, error := none,
           data := some { question := args.question, answer := answer,
                          session_id := session.id, gemini_url := session.geminiUrl } },
         lib2, st2)

/-- Result data of the `remove_conversation` tool. -/
structure RemoveOutcome where
  success : Bool
  error : Option String
  removed : Bool
  closed_sessions : Nat
deriving Repr, DecidableEq

/-- `handleRemoveConversation`: report an error when the id names no library
entry; otherwise remove the entry and close the sessions bound to the removed
entry's URL. -/
def handleRemoveConversation (now id : String) (lib : Library) (st : SMState) :
    RemoveOutcome × Library × SMState :=
  match getConversation lib id with
  | none =>
    ({ success := false, error := some ("Conversation not found: " ++ id),
       removed := false, closed_sessions := 0 }, lib, st)
  | some conversation =>
    let res := removeConversation now id lib
    if res.1 then
      let closed := closeSessionsForConversation conversation.url st
      ({ success := true, error := none, removed := true,
         closed_sessions := closed.1 }, res.2, closed.2)
    else
      ({ success := false, error := some ("Conversation not found: " ++ id),
         removed := false, closed_sessions := 0 }, res.2, st)

/-! ## Configuration (src/config.ts) -/

/-- The configuration fields relevant to the session/auth claims
(`Config` in src/config.ts; the path fields, which come from the external
`env-paths` library, are modelled separately for the cleanup manager). -/
structure Config where
  geminiUrl : String
  headless : Bool
  browserTimeout : Int
  maxSessions : Int
  sessionTimeout : Int
  autoLoginEnabled : Bool
  loginEmail : String
  loginPassword : String
  autoLoginTimeoutMs : Int
deriving Repr, DecidableEq

/-- The hardcoded defaults (`DEFAULTS` in src/config.ts). -/
def DEFAULTS : Config :=
  { geminiUrl := ""
    headless := true
    browserTimeout := 30000
    maxSessions := 10
    sessionTimeout := 900
    autoLoginEnabled := false
    loginEmail := ""
    loginPassword := ""
    autoLoginTimeoutMs := 120000 }

/-- The environment variables read by `applyEnvOverrides` (for the fields
modelled in `Config`); `none` means the variable is unset. -/
structure Env where
  CONVERSATION_URL : Option String
  HEADLESS : Option String
  BROWSER_TIMEOUT : Option String
  MAX_SESSIONS : Option String
  SESSION_TIMEOUT : Option String
  AUTO_LOGIN_ENABLED : Option String
  LOGIN_EMAIL : Option String
  LOGIN_PASSWORD : Option String
  AUTO_LOGIN_TIMEOUT_MS : Option String
deriving Repr, DecidableEq

/-- JS `Number.parseInt(value, 10)`: optional sign followed by leading decimal
digits; `none` models `NaN`. -/
def jsParseInt (s : String) : Option Int :=
  let t := s.trimLeft.data
  let signDigits : Int × List Char :=
    match t with
    | '-' :: r => (-1, r)
    | '+' :: r => (1, r)
    | r => (1, r)
  let digits := signDigits.2.takeWhile Char.isDigit
  if digits.isEmpty then none
  else some (signDigits.1 * Int.ofNat (digits.foldl (fun a c => 10 * a + (c.toNat - 48)) 0))

/-- `parseBoolean` from src/config.ts. -/
def parseBoolean (value : Option String) (defaultValue : Bool) : Bool :=
  match value with
  | none => defaultValue
  | some v =>
    let lower := v.toLower
    if lower == "true" || lower == "1" then true
    else if lower == "false" || lower == "0" then false
    else defaultValue

/-- `parseInteger` from src/config.ts: `Number.parseInt(value, 10)` with a
fallback when unset or `NaN`. -/
def parseInteger (value : Option String) (defaultValue : Int) : Int :=
  match value with
  | none => defaultValue
  | some v => (jsParseInt v).getD defaultValue

/-- `applyEnvOverrides` from src/config.ts (for the modelled fields). -/
def applyEnvOverrides (env : Env) (config : Config) : Config :=
  { config with
    geminiUrl := jsStrOverride env.CONVERSATION_URL config.geminiUrl
    headless := parseBoolean env.HEADLESS config.headless
    browserTimeout := parseInteger env.BROWSER_TIMEOUT config.browserTimeout
    maxSessions := parseInteger env.MAX_SESSIONS config.maxSessions
    sessionTimeout := parseInteger env.SESSION_TIMEOUT config.sessionTimeout
    autoLoginEnabled := parseBoolean env.AUTO_LOGIN_ENABLED config.autoLoginEnabled
    loginEmail := jsStrOverride env.LOGIN_EMAIL config.loginEmail
    loginPassword := jsStrOverride env.LOGIN_PASSWORD config.loginPassword
    autoLoginTimeoutMs := parseInteger env.AUTO_LOGIN_TIMEOUT_MS config.autoLoginTimeoutMs }

/-- `buildConfig` from src/config.ts: defaults overridden by the environment. -/
def buildConfig (env : Env) : Config :=
  applyEnvOverrides env DEFAULTS

/-- Modelled from the spec: `AuthManager.performSetup` (the auth manager
module is not part of the provided sources).  It opens an interactive login
flow and waits, bounded by `CONFIG.autoLoginTimeoutMs`, for login state to be
captured and persisted; `loginCapturedAt` abstracts the time (ms from start)
at which the user completed login, `none` when that never happens.  It returns
whether login state was captured before the deadline; on timeout it returns
`false` rather than throwing (its type is total, `Bool`, not `Except`). -/
def performSetup (cfg : Config) (loginCapturedAt : Option Nat) : Bool :=
  match loginCapturedAt with
  | none => false
  | some t => decide ((t : Int) < cfg.autoLoginTimeoutMs)

/-! ## Cleanup manager (modelled from the spec; src/utils/cleanup-manager.ts
is not part of the provided sources, only its caller `handleCleanupData` is) -/

/-- The on-disk path configuration used by the cleanup manager
(src/config.ts derives them all from one data directory). -/
structure CleanupConfig where
  dataDir : String
deriving Repr, DecidableEq

/-- `CONFIG.browserStateDir`. -/
def browserStateDir (cfg : CleanupConfig) : String :=
  cfg.dataDir ++ "/browser_state"

/-- `CONFIG.chromeProfileDir`. -/
def chromeProfileDir (cfg : CleanupConfig) : String :=
  cfg.dataDir ++ "/chrome_profile"

/-- `CONFIG.chromeInstancesDir`. -/
def chromeInstancesDir (cfg : CleanupConfig) : String :=
  cfg.dataDir ++ "/chrome_profile_instances"

/-- The saved-conversation library file (`library.json` under the data dir). -/
def libraryFilePath (cfg : CleanupConfig) : String :=
  cfg.dataDir ++ "/library.json"

/-- Modelled from the spec: the persisted credential-state file of the auth
manager (one credential-state file under the browser-state directory; the
exact file name is not in the provided sources). -/
def authStateFilePath (cfg : CleanupConfig) : String :=
  cfg.dataDir ++ "/browser_state/state.json"

/-- A flat model of the disk: files with sizes, plus the set of paths whose
deletion fails (locked/in use). -/
structure Disk where
  files : List (String × Nat)
  locked : List String
deriving Repr, DecidableEq

/-- Whether a path exists on disk. -/
def diskHas (disk : Disk) (p : String) : Bool :=
  disk.files.any (fun f => f.1 == p)

/-- The total size recorded on disk for a path. -/
def diskSizeOf (disk : Disk) (p : String) : Nat :=
  (disk.files.filter (fun f => f.1 == p)).foldl (fun a f => a + f.2) 0

/-- One category of a cleanup preview. -/
structure CleanupCategory where
  name : String
  description : String
  paths : List String
  totalBytes : Nat
  optional : Bool
deriving Repr, DecidableEq

/-- A cleanup preview: categories plus the flattened path list and total size. -/
structure CleanupPreview where
  categories : List CleanupCategory
  totalPaths : List String
  totalSizeBytes : Nat
deriving Repr, DecidableEq

/-- Build one preview category from its candidate paths (only paths present
on disk are enumerated). -/
def mkCleanupCategory (disk : Disk) (name description : String)
    (candidates : List String) (optional : Bool) : CleanupCategory :=
  let present := candidates.filter (fun p => diskHas disk p)
  { name := name, description := description, paths := present,
    totalBytes := (present.map (fun p => diskSizeOf disk p)).sum,
    optional := optional }

/-- Modelled from the spec: `CleanupManager.getCleanupPaths` enumerates every
known on-disk category (browser state, profiles, instance profiles, auth data,
and — unless `preserveLibrary` — the saved-conversation library file),
computing per-category path lists and byte sizes, without touching disk. -/
def getCleanupPaths (mode : String) (preserveLibrary : Bool) (cfg : CleanupConfig)
    (disk : Disk) : CleanupPreview :=
  let cats :=
    [mkCleanupCategory disk "browser_state" "Browser state" [browserStateDir cfg] false,
     mkCleanupCategory disk "chrome_profile" "Chrome profile" [chromeProfileDir cfg] false,
     mkCleanupCategory disk "chrome_profile_instances" "Instance profiles"
       [chromeInstancesDir cfg] false,
     mkCleanupCategory disk "auth_data" "Authentication data" [authStateFilePath cfg] false]
    ++ (if preserveLibrary then []
        else [mkCleanupCategory disk "library" "Conversation library"
                [libraryFilePath cfg] true])
  { categories := cats,
    totalPaths := (cats.map (fun c => c.paths)).flatten,
    totalSizeBytes := (cats.map (fun c => c.totalBytes)).sum }

/-- The result of `performCleanup`. -/
structure CleanupResult where
  success : Bool
  deletedPaths : List String
  failedPaths : List String
  totalSizeBytes : Nat
deriving Repr, DecidableEq

/-- Modelled from the spec: `CleanupManager.performCleanup` deletes every path
from the preview; deletion is best-effort per path: a failed path is recorded
in `failedPaths` and does not abort the rest; the aggregate `success` flag is
true only when `failedPaths` is empty. -/
def performCleanup (mode : String) (preserveLibrary : Bool) (cfg : CleanupConfig)
    (disk : Disk) : CleanupResult × Disk :=
  let preview := getCleanupPaths mode preserveLibrary cfg disk
  let deleted := preview.totalPaths.filter (fun p => !(disk.locked.contains p))
  let failed := preview.totalPaths.filter (fun p => disk.locked.contains p)
  ({ success := failed.isEmpty,
     deletedPaths := deleted,
     failedPaths := failed,
     totalSizeBytes := (deleted.map (fun p => diskSizeOf disk p)).sum },
   { disk with files := disk.files.filter (fun f => !(deleted.contains f.1)) })

/-- Outcome of the `cleanup_data` tool. -/
structure CleanupOutcome where
  success : Bool
  status : String
  mode : String
  preview : Option CleanupPreview
  result : Option CleanupResult
deriving Repr, DecidableEq

/-- `handleCleanupData`: with `confirm = false` only a preview is produced
(`getCleanupPaths`); with `confirm = true` the cleanup is performed
(`performCleanup`) and its aggregate success is reported. -/
def handleCleanupData (confirm : Bool) (preserve_library : Bool)
    (cfg : CleanupConfig) (disk : Disk) : CleanupOutcome × Disk :=
  let mode := "deep"
  if !confirm then
    let preview := getCleanupPaths mode preserve_library cfg disk
    ({ success := true, status := "preview", mode := mode,
       preview := some preview, result := none }, disk)
  else
    let res := performCleanup mode preserve_library cfg disk
    ({ success := res.1.success,
       status := if res.1.success then "completed" else "partial",
       mode := mode, preview := none, result := some res.1 }, res.2)

/-! ## Concrete sample values used to exercise the definitions -/

/-- A sample busy session. -/
def sampleBusySession : Session :=
  { id := "a", createdAt := 0, lastActivity := 0, messageCount := 5,
    geminiUrl := none, status := SessionStatus.busy }

/-- A sample manager state holding one busy session. -/
def sampleBusySM : SMState :=
  { sessions := [sampleBusySession], maxSessions := 10, sessionTimeout := 900 }

/-- A sample library entry. -/
def sampleEntry : ConversationEntry :=
  { id := "docs", url := "https://g/one", name := "Docs", description := "d",
    topics := ["t"], content_types := ["documentation"], use_cases := ["u"],
    added_at := "2026-01-01", last_used := "2026-01-01", use_count := 0, tags := [] }

/-- A second sample library entry with a different URL. -/
def sampleEntry2 : ConversationEntry :=
  { sampleEntry with id := "notes", url := "https://g/two", name := "Notes" }

/-- A sample library holding both entries, the first one active. -/
def sampleLib : Library :=
  { conversations := [sampleEntry, sampleEntry2], active_conversation_id := some "docs",
    last_modified := "", version := "1.0.0" }

/-- A sample idle session bound to the first entry. -/
def sampleSessionOne : Session :=
  { id := "s1", createdAt := 0, lastActivity := 10, messageCount := 0,
    geminiUrl := some "https://g/one", status := SessionStatus.idle }

/-- A sample idle session bound to the second entry. -/
def sampleSessionTwo : Session :=
  { id := "s2", createdAt := 0, lastActivity := 20, messageCount := 0,
    geminiUrl := some "https://g/two", status := SessionStatus.idle }

/-- A sample manager state holding both sessions. -/
def sampleSM2 : SMState :=
  { sessions := [sampleSessionOne, sampleSessionTwo], maxSessions := 10,
    sessionTimeout := 900 }

/-- An environment with no variables set. -/
def sampleEnv : Env :=
  { CONVERSATION_URL := none, HEADLESS := none, BROWSER_TIMEOUT := none,
    MAX_SESSIONS := none, SESSION_TIMEOUT := none, AUTO_LOGIN_ENABLED := none,
    LOGIN_EMAIL := none, LOGIN_PASSWORD := none, AUTO_LOGIN_TIMEOUT_MS := none }

/-- Sample `ask_question` arguments carrying an explicit conversation URL. -/
def sampleAskArgs : AskArgs :=
  { question := "q", session_id := none, conversation_id := none,
    gemini_url := some "https://g/one" }

/-- An empty session-manager state with capacity 10. -/
def emptySM : SMState :=
  { sessions := [], maxSessions := 10, sessionTimeout := 900 }

/-- The session `getOrCreateSession` registers for `sampleAskArgs` on `emptySM`. -/
def sampleNewSession : Session :=
  { id := "fresh", createdAt := 0, lastActivity := 0, messageCount := 0,
    geminiUrl := some "https://g/one", status := SessionStatus.idle }

/-- The manager state after that registration. -/
def sampleNewSM : SMState :=
  { sessions := [sampleNewSession], maxSessions := 10, sessionTimeout := 900 }

/-- A sample rate-limit failure. -/
def sampleRateError : JsError :=
  { isRateLimitError := true, message := "quota exceeded" }

/-- A sample cleanup path configuration. -/
def sampleCleanupCfg : CleanupConfig :=
  { dataDir := "/home/u/.local/share/gemini-mcp" }

/-- A sample disk holding the browser-state directory and the library file. -/
def sampleDisk : Disk :=
  { files := [(browserStateDir sampleCleanupCfg, 100),
              (libraryFilePath sampleCleanupCfg, 50)],
    locked := [] }

/-- Sample input for adding a conversation. -/
def sampleAddInput : AddConversationInput :=
  { url := "https://g/three", name := "Guides!", description := "g",
    topics := ["t"], content_types := none, use_cases := none, tags := none }

/-- A sample sequence of library operations. -/
def sampleOps : List LibOp :=
  [LibOp.add "t2" sampleAddInput, LibOp.select "t3" "notes",
   LibOp.incUse "t4" "notes", LibOp.remove "t5" "docs"]

/-- A full manager state at capacity 2 with two idle sessions. -/
def sampleFullSM : SMState :=
  { sessions := [sampleSessionOne, sampleSessionTwo], maxSessions := 2,
    sessionTimeout := 900 }

/-- A full manager state at capacity 1 whose only session is busy. -/
def sampleBusyFullSM : SMState :=
  { sessions := [sampleBusySession], maxSessions := 1, sessionTimeout := 900 }

/-! ## Supporting lemmas: strings and decimal digits -/

theorem asString_injective {a b : List Char} (h : a.asString = b.asString) : a = b := by
  simp only [List.asString] at h
  exact String.ext_iff.mp h

theorem strAppend_cancel_left (p : String) {a b : String} (h : p ++ a = p ++ b) : a = b := by
  have hd : (p ++ a).data = (p ++ b).data := by rw [h]
  simp only [String.data_append] at hd
  exact String.ext (List.append_cancel_left hd)

theorem digitChar_val {d : Nat} (h : d < 10) : (Nat.digitChar d).toNat - 48 = d := by
  interval_cases d <;> decide

theorem toDigitsCore_eq :
    ∀ (fuel n : Nat) (ds : List Char), n < fuel →
      Nat.toDigitsCore 10 fuel n ds = natDigits n ++ ds := by
  intro fuel
  induction fuel with
  | zero => intro n ds h; exact absurd h (Nat.not_lt_zero n)
  | succ f ih =>
    intro n ds h
    by_cases h0 : n / 10 = 0
    · rw [natDigits]
      simp [Nat.toDigitsCore, h0]
    · have hpos : 0 < n := Nat.pos_of_ne_zero fun hn => h0 (by simp [hn])
      have hdiv : n / 10 < n := Nat.div_lt_self hpos (by decide)
      have hlt : n / 10 < f := by omega
      have hstep : Nat.toDigitsCore 10 (f + 1) n ds =
          Nat.toDigitsCore 10 f (n / 10) (Nat.digitChar (n % 10) :: ds) := by
        simp [Nat.toDigitsCore, h0]
      rw [hstep, ih (n / 10) _ hlt]
      conv_rhs => rw [natDigits, dif_neg h0]
      rw [List.append_assoc]
      rfl

theorem repr_eq_natDigits (n : Nat) : Nat.repr n = (natDigits n).asString := by
  rw [Nat.repr, Nat.toDigits, toDigitsCore_eq (n + 1) n [] (Nat.lt_succ_self n),
    List.append_nil]

theorem evalDigits_natDigits (n : Nat) : evalDigits (natDigits n) = n := by
  induction n using Nat.strong_induction_on with
  | _ n ih =>
    rw [natDigits]
    by_cases h0 : n / 10 = 0
    · rw [dif_pos h0]
      have hlt : n < 10 := (Nat.div_eq_zero_iff (by decide)).mp h0
      have hm : n % 10 = n := Nat.mod_eq_of_lt hlt
      simp only [evalDigits, List.foldl, hm]
      simp [digitChar_val hlt]
    · have hpos : 0 < n := Nat.pos_of_ne_zero fun hn => h0 (by simp [hn])
      have hdiv : n / 10 < n := Nat.div_lt_self hpos (by decide)
      rw [dif_neg h0]
      have hih := ih (n / 10) hdiv
      simp only [evalDigits, List.foldl_append] at hih ⊢
      rw [hih]
      simp [digitChar_val (Nat.mod_lt n (by decide) : n % 10 < 10)]
      omega

theorem natRepr_injective : Function.Injective Nat.repr := by
  intro a b h
  rw [repr_eq_natDigits, repr_eq_natDigits] at h
  have hd := asString_injective h
  have he := congrArg evalDigits hd
  rwa [evalDigits_natDigits, evalDigits_natDigits] at he

/-! ## Supporting lemmas: id generation -/

theorem appendRepr_injective (p : String) :
    Function.Injective (fun k : Nat => p ++ Nat.repr k) := by
  intro a b h
  exact natRepr_injective (strAppend_cancel_left p h)

theorem mem_map_id_iff_any (conversations : List ConversationEntry) (x : String) :
    x ∈ conversations.map (fun n => n.id) ↔
      conversations.any (fun n => n.id == x) = true := by
  simp only [List.any_eq_true, List.mem_map, beq_iff_eq]

theorem exists_free_candidate (conversations : List ConversationEntry) (base : String) :
    ∃ k, 1 ≤ k ∧ k < conversations.length + 2 ∧
      (base ++ "-" ++ Nat.repr k) ∉ conversations.map (fun n => n.id) := by
  by_contra hall
  push_neg at hall
  have hnodup :
      ((List.range (conversations.length + 1)).map
        (fun i => base ++ "-" ++ Nat.repr (i + 1))).Nodup := by
    refine List.Nodup.map ?_ (List.nodup_range _)
    intro a b hab
    have h2 := natRepr_injective (strAppend_cancel_left (base ++ "-") hab)
    omega
  have hsub :
      ((List.range (conversations.length + 1)).map
        (fun i => base ++ "-" ++ Nat.repr (i + 1))) ⊆
        conversations.map (fun n => n.id) := by
    intro x hx
    simp only [List.mem_map, List.mem_range] at hx
    obtain ⟨i, hi, rfl⟩ := hx
    exact hall (i + 1) (by omega) (by omega)
  have hle := (hnodup.subperm hsub).length_le
  simp only [List.length_map, List.length_range] at hle
  omega

theorem generateIdAux_fresh (conversations : List ConversationEntry) (base : String) :
    ∀ (fuel counter : Nat),
      (∃ k, counter ≤ k ∧ k < counter + fuel ∧
        (base ++ "-" ++ Nat.repr k) ∉ conversations.map (fun n => n.id)) →
      generateIdAux conversations base counter fuel ∉ conversations.map (fun n => n.id) := by
  intro fuel
  induction fuel with
  | zero =>
    rintro counter ⟨k, h1, h2, _⟩
    omega
  | succ f ih =>
    rintro counter ⟨k, h1, h2, hk⟩
    rw [generateIdAux]
    by_cases hc : conversations.any (fun n => n.id == base ++ "-" ++ Nat.repr counter) = true
    · rw [if_pos hc]
      apply ih
      have hkc : k ≠ counter := by
        intro he
        exact hk (he ▸ (mem_map_id_iff_any conversations _).mpr hc)
      exact ⟨k, by omega, by omega, hk⟩
    · rw [if_neg hc]
      intro hmem
      exact hc ((mem_map_id_iff_any conversations _).mp hmem)

theorem generateId_fresh (conversations : List ConversationEntry) (name : String) :
    generateId conversations name ∉ conversations.map (fun n => n.id) := by
  rw [generateId]
  by_cases hc : conversations.any (fun n => n.id == slugBase name) = true
  · rw [if_pos hc]
    obtain ⟨k, h1, h2, hk⟩ := exists_free_candidate conversations (slugBase name)
    exact generateIdAux_fresh conversations (slugBase name) (conversations.length + 1) 1
      ⟨k, h1, by omega, hk⟩
  · rw [if_neg hc]
    intro hmem
    exact hc ((mem_map_id_iff_any conversations _).mp hmem)

theorem generateIdAux_shape (conversations : List ConversationEntry) (base : String) :
    ∀ (fuel counter : Nat), ∃ k, counter ≤ k ∧
      generateIdAux conversations base counter fuel = base ++ "-" ++ Nat.repr k := by
  intro fuel
  induction fuel with
  | zero => intro counter; exact ⟨counter, Nat.le_refl _, rfl⟩
  | succ f ih =>
    intro counter
    rw [generateIdAux]
    by_cases hc : conversations.any (fun n => n.id == base ++ "-" ++ Nat.repr counter) = true
    · rw [if_pos hc]
      obtain ⟨k, hk1, hk2⟩ := ih (counter + 1)
      exact ⟨k, by omega, hk2⟩
    · rw [if_neg hc]
      exact ⟨counter, Nat.le_refl _, rfl⟩

/-! ## Supporting lemmas: library operations -/

theorem updateFirst_map {α β : Type} (p : α → Bool) (f : α → α) (g : α → β)
    (hg : ∀ x, p x = true → g (f x) = g x) :
    ∀ l : List α, (updateFirst p f l).map g = l.map g := by
  intro l
  induction l with
  | nil => rfl
  | cons x xs ih =>
    rw [updateFirst]
    by_cases hx : p x = true
    · simp [hx, hg x hx]
    · simp [hx, ih]

theorem getConversation_id {lib : Library} {id : String} {conv : ConversationEntry}
    (h : getConversation lib id = some conv) : conv.id = id := by
  have := List.find?_some h
  simpa using this

theorem getConversation_mem {lib : Library} {id : String} {conv : ConversationEntry}
    (h : getConversation lib id = some conv) : conv ∈ lib.conversations :=
  List.mem_of_find?_eq_some h

theorem libIds_selectConversation {now id : String} {lib : Library}
    {e : ConversationEntry} {lib2 : Library}
    (h : selectConversation now id lib = Except.ok (e, lib2)) :
    libIds lib2 = libIds lib ∧ lib2.active_conversation_id = some id := by
  rw [selectConversation] at h
  cases hg : getConversation lib id with
  | none => rw [hg] at h; exact absurd h (by simp)
  | some conversation =>
    rw [hg] at h
    simp only [Except.ok.injEq, Prod.mk.injEq] at h
    obtain ⟨-, rfl⟩ := h
    refine ⟨?_, rfl⟩
    show (updateFirst (fun n => n.id == id)
        (fun _ => { conversation with last_used := now }) lib.conversations).map
        (fun n => n.id) = libIds lib
    exact updateFirst_map _ _ _
      (fun x hx => by
        have hx' : x.id = id := by simpa using hx
        simp [hx', getConversation_id hg]) lib.conversations

theorem libIds_updateConversation {now : String} {input : UpdateConversationInput}
    {lib : Library} {e : ConversationEntry} {lib2 : Library}
    (h : updateConversation now input lib = Except.ok (e, lib2)) :
    libIds lib2 = libIds lib ∧
      lib2.active_conversation_id = lib.active_conversation_id := by
  rw [updateConversation] at h
  cases hg : getConversation lib input.id with
  | none => rw [hg] at h; exact absurd h (by simp)
  | some conversation =>
    rw [hg] at h
    simp only [Except.ok.injEq, Prod.mk.injEq] at h
    obtain ⟨-, rfl⟩ := h
    refine ⟨?_, rfl⟩
    show (updateFirst (fun n => n.id == input.id)
        (fun _ => applyUpdate input conversation) lib.conversations).map
        (fun n => n.id) = libIds lib
    exact updateFirst_map _ _ _
      (fun x hx => by
        have hx' : x.id = input.id := by simpa using hx
        simp [applyUpdate, hx', getConversation_id hg]) lib.conversations

theorem libIds_incrementUseCount (now id : String) (lib : Library) :
    libIds ((incrementUseCount now id lib).2) = libIds lib ∧
      ((incrementUseCount now id lib).2).active_conversation_id =
        lib.active_conversation_id := by
  rw [incrementUseCount]
  cases hg : getConversation lib id with
  | none => exact ⟨rfl, rfl⟩
  | some conversation =>
    refine ⟨?_, rfl⟩
    show (updateFirst (fun n => n.id == id)
        (fun _ => { conversation with
          use_count := conversation.use_count + 1, last_used := now })
        lib.conversations).map (fun n => n.id) = libIds lib
    exact updateFirst_map _ _ _
      (fun x hx => by
        have hx' : x.id = id := by simpa using hx
        simp [hx', getConversation_id hg]) lib.conversations

theorem libIds_addConversation (now : String) (input : AddConversationInput)
    (lib : Library) :
    libIds ((addConversation now input lib).2) =
      libIds lib ++ [generateId lib.conversations input.name] := by
  simp [addConversation, libIds]

theorem activeValidB_iff (lib : Library) :
    activeValidB lib = true ↔
      ∀ a, lib.active_conversation_id = some a → a ∈ libIds lib := by
  cases h : lib.active_conversation_id with
  | none => simp [activeValidB, h]
  | some a => simp [activeValidB, h]

theorem activeValid_addConversation (now : String) (input : AddConversationInput)
    (lib : Library) (h : activeValidB lib = true) :
    activeValidB ((addConversation now input lib).2) = true := by
  rw [activeValidB_iff] at h ⊢
  intro a ha
  rw [libIds_addConversation]
  simp only [addConversation] at ha
  split at ha
  · simp only [Option.some.injEq] at ha
    subst ha
    exact List.mem_append_right _ (List.mem_singleton_self _)
  · exact List.mem_append_left _ (h a ha)

theorem activeValid_selectConversation (now id : String) (lib : Library)
    (h : activeValidB lib = true) :
    activeValidB (applyOp lib (LibOp.select now id)) = true := by
  rw [applyOp]
  cases hs : selectConversation now id lib with
  | error _ => exact h
  | ok r =>
    obtain ⟨e, lib2⟩ := r
    obtain ⟨hids, hact⟩ := libIds_selectConversation hs
    rw [activeValidB_iff]
    intro a ha
    rw [hact] at ha
    simp only [Option.some.injEq] at ha
    subst ha
    rw [hids]
    rw [selectConversation] at hs
    cases hg : getConversation lib id with
    | none => rw [hg] at hs; exact absurd hs (by simp)
    | some conv =>
      have := getConversation_id hg
      have hmem := getConversation_mem hg
      exact this ▸ List.mem_map_of_mem (fun n => n.id) hmem

theorem activeValid_updateConversation (now : String) (input : UpdateConversationInput)
    (lib : Library) (h : activeValidB lib = true) :
    activeValidB (applyOp lib (LibOp.update now input)) = true := by
  rw [applyOp]
  cases hs : updateConversation now input lib with
  | error _ => exact h
  | ok r =>
    obtain ⟨e, lib2⟩ := r
    obtain ⟨hids, hact⟩ := libIds_updateConversation hs
    rw [activeValidB_iff] at h ⊢
    intro a ha
    rw [hact] at ha
    rw [hids]
    exact h a ha

theorem activeValid_removeConversation (now id : String) (lib : Library)
    (h : activeValidB lib = true) :
    activeValidB ((removeConversation now id lib).2) = true := by
  cases hg : getConversation lib id with
  | none => simpa [removeConversation, hg] using h
  | some conv =>
    rw [activeValidB_iff] at h ⊢
    intro a ha
    simp only [removeConversation, hg, libIds] at ha ⊢
    by_cases hae : (lib.active_conversation_id == some id) = true
    · rw [if_pos hae] at ha
      cases hf : lib.conversations.filter (fun n => !(n.id == id)) with
      | nil => rw [hf] at ha; exact absurd ha (by simp)
      | cons c rest =>
        rw [hf] at ha
        simp only [Option.some.injEq] at ha
        subst ha
        exact List.mem_map_of_mem _ (List.mem_cons_self c rest)
    · rw [if_neg hae] at ha
      have hmem := h a ha
      have hne : a ≠ id := by
        intro he
        subst he
        rw [ha] at hae
        simp at hae
      simp only [libIds, List.mem_map] at hmem
      obtain ⟨e, he, rfl⟩ := hmem
      refine List.mem_map_of_mem _ ?_
      rw [List.mem_filter]
      exact ⟨he, by simpa using hne⟩

theorem activeValid_incrementUseCount (now id : String) (lib : Library)
    (h : activeValidB lib = true) :
    activeValidB ((incrementUseCount now id lib).2) = true := by
  obtain ⟨hids, hact⟩ := libIds_incrementUseCount now id lib
  rw [activeValidB_iff] at h ⊢
  intro a ha
  rw [hact] at ha
  rw [hids]
  exact h a ha

theorem activeValid_applyOp (lib : Library) (op : LibOp)
    (h : activeValidB lib = true) : activeValidB (applyOp lib op) = true := by
  cases op with
  | add now input => exact activeValid_addConversation now input lib h
  | select now id => exact activeValid_selectConversation now id lib h
  | update now input => exact activeValid_updateConversation now input lib h
  | remove now id => exact activeValid_removeConversation now id lib h
  | incUse now id => exact activeValid_incrementUseCount now id lib h

theorem activeValid_applyOps (lib : Library) (ops : List LibOp)
    (h : activeValidB lib = true) : activeValidB (applyOps lib ops) = true := by
  induction ops generalizing lib with
  | nil => exact h
  | cons op ops ih => exact ih (applyOp lib op) (activeValid_applyOp lib op h)

theorem nodup_addConversation (now : String) (input : AddConversationInput)
    (lib : Library) (h : (libIds lib).Nodup) :
    (libIds ((addConversation now input lib).2)).Nodup := by
  rw [libIds_addConversation, List.nodup_append]
  refine ⟨h, List.nodup_singleton _, ?_⟩
  intro a ha hb
  simp only [List.mem_singleton] at hb
  subst hb
  exact generateId_fresh lib.conversations input.name ha

theorem nodup_removeConversation (now id : String) (lib : Library)
    (h : (libIds lib).Nodup) :
    (libIds ((removeConversation now id lib).2)).Nodup := by
  cases hg : getConversation lib id with
  | none => simpa [removeConversation, hg] using h
  | some conv =>
    simp only [removeConversation, hg, libIds]
    have hsub : (lib.conversations.filter (fun n => !(n.id == id))).Sublist
        lib.conversations := List.filter_sublist lib.conversations
    exact List.Nodup.sublist (List.Sublist.map (fun n => n.id) hsub) h

theorem nodup_applyOp (lib : Library) (op : LibOp)
    (h : (libIds lib).Nodup) : (libIds (applyOp lib op)).Nodup := by
  cases op with
  | add now input => exact nodup_addConversation now input lib h
  | select now id =>
    rw [applyOp]
    cases hs : selectConversation now id lib with
    | error _ => exact h
    | ok r =>
      obtain ⟨e, lib2⟩ := r
      rw [(libIds_selectConversation hs).1]
      exact h
  | update now input =>
    rw [applyOp]
    cases hs : updateConversation now input lib with
    | error _ => exact h
    | ok r =>
      obtain ⟨e, lib2⟩ := r
      rw [(libIds_updateConversation hs).1]
      exact h
  | remove now id => exact nodup_removeConversation now id lib h
  | incUse now id =>
    rw [applyOp, (libIds_incrementUseCount now id lib).1]
    exact h

theorem nodup_applyOps (lib : Library) (ops : List LibOp)
    (h : (libIds lib).Nodup) : (libIds (applyOps lib ops)).Nodup := by
  induction ops generalizing lib with
  | nil => exact h
  | cons op ops ih => exact ih (applyOp lib op) (nodup_applyOp lib op h)

/-! ## Supporting lemmas: session manager -/

theorem foldl_olderOf_mem :
    ∀ (l : List Session) (acc : Option Session) (v : Session),
      l.foldl olderOf acc = some v → acc = some v ∨ v ∈ l := by
  intro l
  induction l with
  | nil => intro acc v h; exact Or.inl h
  | cons x xs ih =>
    intro acc v h
    rcases ih (olderOf acc x) v h with h2 | h2
    · cases acc with
      | none =>
        simp only [olderOf, Option.some.injEq] at h2
        exact Or.inr (h2 ▸ List.mem_cons_self x xs)
      | some m =>
        simp only [olderOf] at h2
        split at h2
        · simp only [Option.some.injEq] at h2
          exact Or.inr (h2 ▸ List.mem_cons_self x xs)
        · exact Or.inl h2
    · exact Or.inr (List.mem_cons_of_mem x h2)

theorem foldl_olderOf_min :
    ∀ (l : List Session) (acc : Option Session) (v : Session),
      l.foldl olderOf acc = some v →
      (∀ s ∈ l, v.lastActivity ≤ s.lastActivity) ∧
      (∀ a, acc = some a → v.lastActivity ≤ a.lastActivity) := by
  intro l
  induction l with
  | nil =>
    intro acc v h
    refine ⟨fun s hs => absurd hs (List.not_mem_nil s), fun a ha => ?_⟩
    simp only [List.foldl_nil] at h
    rw [ha] at h
    simp only [Option.some.injEq] at h
    subst h
    exact Nat.le_refl _
  | cons x xs ih =>
    intro acc v h
    obtain ⟨hall, hacc⟩ := ih (olderOf acc x) v h
    have hx : v.lastActivity ≤ x.lastActivity := by
      cases acc with
      | none => exact hacc x rfl
      | some m =>
        simp only [olderOf] at hacc
        split at hacc
        · exact hacc x rfl
        · have hm := hacc m rfl
          omega
    refine ⟨fun s hs => ?_, fun a ha => ?_⟩
    · rcases List.mem_cons.mp hs with rfl | hs2
      · exact hx
      · exact hall s hs2
    · subst ha
      by_cases hlt : x.lastActivity < a.lastActivity
      · have := hacc x (by simp [olderOf, hlt])
        omega
      · exact hacc a (by simp [olderOf, hlt])

theorem olderOf_ne_none (acc : Option Session) (x : Session) :
    olderOf acc x ≠ none := by
  cases acc with
  | none => simp [olderOf]
  | some m =>
    simp only [olderOf]
    split <;> simp

theorem foldl_olderOf_some :
    ∀ (l : List Session) (m : Session), ∃ v, l.foldl olderOf (some m) = some v := by
  intro l
  induction l with
  | nil => intro m; exact ⟨m, rfl⟩
  | cons x xs ih =>
    intro m
    rw [List.foldl_cons]
    cases hm : olderOf (some m) x with
    | none => exact absurd hm (olderOf_ne_none _ _)
    | some m2 => exact ih m2

theorem foldl_olderOf_none :
    ∀ (l : List Session) (acc : Option Session),
      l.foldl olderOf acc = none → l = [] ∧ acc = none := by
  intro l
  induction l with
  | nil => intro acc h; exact ⟨rfl, h⟩
  | cons x xs ih =>
    intro acc h
    rw [List.foldl_cons] at h
    cases hacc : olderOf acc x with
    | none => exact absurd hacc (olderOf_ne_none _ _)
    | some m2 =>
      rw [hacc] at h
      obtain ⟨v, hv⟩ := foldl_olderOf_some xs m2
      rw [hv] at h
      exact absurd h (by simp)

theorem lruIdle_spec {sessions : List Session} {v : Session}
    (h : lruIdle sessions = some v) :
    v ∈ sessions ∧ v.status = SessionStatus.idle ∧
      ∀ s ∈ sessions, s.status = SessionStatus.idle →
        v.lastActivity ≤ s.lastActivity := by
  rw [lruIdle] at h
  have hmem := foldl_olderOf_mem _ _ _ h
  have hmin := (foldl_olderOf_min _ _ _ h).1
  rcases hmem with h2 | h2
  · exact absurd h2 (by simp)
  · rw [List.mem_filter] at h2
    refine ⟨h2.1, by simpa using h2.2, fun s hs hidle => ?_⟩
    refine hmin s ?_
    rw [List.mem_filter]
    exact ⟨hs, by simp [hidle]⟩

theorem lruIdle_none {sessions : List Session}
    (h : lruIdle sessions = none) :
    ∀ s ∈ sessions, s.status ≠ SessionStatus.idle := by
  rw [lruIdle] at h
  have hfe := (foldl_olderOf_none _ _ h).1
  intro s hs hidle
  have : s ∈ sessions.filter (fun s => s.status == SessionStatus.idle) := by
    rw [List.mem_filter]
    exact ⟨hs, by simp [hidle]⟩
  rw [hfe] at this
  exact absurd this (List.not_mem_nil s)

theorem lruIdle_isSome {sessions : List Session} {v0 : Session}
    (hv : v0 ∈ sessions) (hidle : v0.status = SessionStatus.idle) :
    ∃ v, lruIdle sessions = some v := by
  cases h : lruIdle sessions with
  | none => exact absurd hidle (lruIdle_none h v0 hv)
  | some v => exact ⟨v, rfl⟩

theorem getOrCreateSession_create (now : Nat) (i : String) (url : Option String)
    (st : SMState)
    (hfind : ∀ s ∈ st.sessions, s.id ≠ i)
    (hcap : st.sessions.length < st.maxSessions) :
    getOrCreateSession now i (some i) url st =
      Except.ok ({ id := i, createdAt := now, lastActivity := now, messageCount := 0,
                   geminiUrl := url, status := SessionStatus.idle },
        { st with sessions := st.sessions ++
            [{ id := i, createdAt := now, lastActivity := now, messageCount := 0,
               geminiUrl := url, status := SessionStatus.idle }] }) := by
  have hf : st.sessions.find? (fun s => s.id == i) = none := by
    rw [List.find?_eq_none]
    intro s hs
    simpa using hfind s hs
  have hnc : ¬(st.maxSessions ≤ st.sessions.length) := by omega
  simp [getOrCreateSession, hf, hnc]

theorem createSessions_ok :
    ∀ (ids : List String) (st : SMState),
      ids.Nodup →
      (∀ i ∈ ids, ∀ s ∈ st.sessions, s.id ≠ i) →
      st.sessions.length + ids.length ≤ st.maxSessions →
      createSessions ids st =
        Except.ok { st with sessions := st.sessions ++ ids.map mkFreshSession } := by
  intro ids
  induction ids with
  | nil =>
    intro st _ _ _
    simp only [createSessions, List.foldlM_nil, List.map_nil, List.append_nil]
    rfl
  | cons i rest ih =>
    intro st hnodup hdisj hcap
    have hstep := getOrCreateSession_create 0 i none st
      (fun s hs => hdisj i (List.mem_cons_self i rest) s hs)
      (by simp only [List.length_cons] at hcap; omega)
    have hgoal : createSessions (i :: rest) st =
        createSessions rest { st with sessions := st.sessions ++ [mkFreshSession i] } := by
      rw [createSessions, List.foldlM_cons, hstep]
      rfl
    have hrest := ih { st with sessions := st.sessions ++ [mkFreshSession i] }
      (List.nodup_cons.mp hnodup).2
      (by
        intro i2 hi2 s hs
        simp only [List.mem_append] at hs
        rcases hs with hs | hs
        · exact hdisj i2 (List.mem_cons_of_mem i hi2) s hs
        · simp only [List.mem_singleton] at hs
          subst hs
          show i ≠ i2
          intro he
          subst he
          exact (List.nodup_cons.mp hnodup).1 hi2)
      (by
        simp only [List.length_append, List.length_cons, List.length_nil] at hcap ⊢
        omega)
    rw [hgoal, hrest]
    simp

/-! ## Supporting lemmas: answer formatting and message strings -/

theorem trimEndData_append_ws (l : List Char) :
    l = trimEndData l ++ (l.reverse.takeWhile Char.isWhitespace).reverse := by
  conv_lhs =>
    rw [← List.reverse_reverse l,
      ← List.takeWhile_append_dropWhile (p := Char.isWhitespace) (l := l.reverse)]
  rw [List.reverse_append]
  rfl

theorem jsTrimEnd_append_ne (R : String) (hR : ∃ c ∈ R.data, c.isWhitespace = false) :
    ∀ raw : String, jsTrimEnd raw ++ R ≠ raw := by
  intro raw heq
  obtain ⟨c, hcR, hcw⟩ := hR
  have hd : (jsTrimEnd raw ++ R).data = raw.data := by rw [heq]
  rw [String.data_append] at hd
  have hjs : (jsTrimEnd raw).data = trimEndData raw.data := rfl
  rw [hjs] at hd
  have hd2 := hd.trans (trimEndData_append_ws raw.data)
  have hR2 := List.append_cancel_left hd2
  rw [hR2] at hcR
  have := List.mem_takeWhile_imp (List.mem_reverse.mp hcR)
  rw [hcw] at this
  exact absurd this (by simp)

theorem append_left_ne (p m : String) (hp : p ≠ "") : p ++ m ≠ m := by
  intro h
  have hd : (p ++ m).data = m.data := by rw [h]
  rw [String.data_append] at hd
  have hlen := congrArg List.length hd
  rw [List.length_append] at hlen
  have hz : p.data.length = 0 := by omega
  have hnil : p.data = [] := List.length_eq_zero.mp hz
  exact hp (String.ext hnil)

theorem strAppend_right_ne (d : String) {a b : String} (hab : a ≠ b) :
    d ++ a ≠ d ++ b :=
  fun h => hab (strAppend_cancel_left d h)

/-! ## Claim theorems -/

theorem mem_sweep (st : SMState) (now : Nat) (s : Session) :
    s ∈ (sweep now st).sessions ↔
      s ∈ st.sessions ∧
        ¬(s.status = SessionStatus.idle ∧ st.sessionTimeout ≤ now - s.lastActivity) := by
  simp only [sweep]
  rw [List.mem_filter]
  constructor
  · rintro ⟨h1, h2⟩
    refine ⟨h1, ?_⟩
    rintro ⟨hidle, hto⟩
    rw [hidle] at h2
    simp [hto] at h2
  · rintro ⟨h1, h2⟩
    refine ⟨h1, ?_⟩
    by_cases hidle : s.status = SessionStatus.idle
    · have hto : ¬(st.sessionTimeout ≤ now - s.lastActivity) :=
        fun hto => h2 ⟨hidle, hto⟩
      simp [hidle, hto]
    · simp [hidle]

/-- C2: the background sweep closes a session only if its status is `idle` and
its idle duration has reached the configured `sessionTimeout`; for every state
of the session manager, a sweep step never closes a `busy` session, regardless
of the session's age, and it does close every idle session whose idle duration
has reached the timeout. -/
theorem claim_C2 :
    ∀ (st : SMState) (now : Nat) (s : Session), s ∈ st.sessions →
      ((s.status = SessionStatus.busy → s ∈ (sweep now st).sessions) ∧
       (s ∉ (sweep now st).sessions →
         s.status = SessionStatus.idle ∧ st.sessionTimeout ≤ now - s.lastActivity) ∧
       (s.status = SessionStatus.idle → st.sessionTimeout ≤ now - s.lastActivity →
         s ∉ (sweep now st).sessions)) := by
  intro st now s hs
  refine ⟨?_, ?_, ?_⟩
  · intro hbusy
    rw [mem_sweep]
    refine ⟨hs, ?_⟩
    rintro ⟨hidle, -⟩
    rw [hbusy] at hidle
    exact SessionStatus.noConfusion hidle
  · intro hnot
    by_contra hcon
    rw [not_and] at hcon
    exact hnot ((mem_sweep st now s).mpr ⟨hs, fun ⟨h1, h2⟩ => hcon h1 h2⟩)
  · intro hidle hto hmem
    exact ((mem_sweep st now s).mp hmem).2 ⟨hidle, hto⟩

theorem claim_C2_witness :
    sampleBusySession ∈ sampleBusySM.sessions ∧
      (sampleBusySession.status = SessionStatus.busy →
        sampleBusySession ∈ (sweep 100000 sampleBusySM).sessions) :=
  ⟨by decide, (claim_C2 sampleBusySM 100000 sampleBusySession (by decide)).1⟩

/-- C3: when the `remove_conversation` handler removes a library entry, it
invokes `closeSessionsForConversation` with exactly the removed entry's URL:
it closes exactly the sessions whose bound target URL equals that URL, leaves
sessions bound to other URLs registered, and returns the number closed (0,
without error, when no session is bound to it).  When the id names no library
entry, the handler reports an error and no session is closed. -/
theorem claim_C3 :
    ∀ (now id : String) (lib : Library) (st : SMState),
      (getConversation lib id = none →
        handleRemoveConversation now id lib st =
          ({ success := false, error := some ("Conversation not found: " ++ id),
             removed := false, closed_sessions := 0 }, lib, st)) ∧
      (∀ conversation, getConversation lib id = some conversation →
        (handleRemoveConversation now id lib st).1 =
          { success := true, error := none, removed := true,
            closed_sessions := (st.sessions.filter
              (fun s => s.geminiUrl == some conversation.url)).length } ∧
        (handleRemoveConversation now id lib st).2.2.sessions =
          st.sessions.filter (fun s => !(s.geminiUrl == some conversation.url)) ∧
        (∀ s ∈ st.sessions, s.geminiUrl ≠ some conversation.url →
          s ∈ (handleRemoveConversation now id lib st).2.2.sessions) ∧
        ((∀ s ∈ st.sessions, s.geminiUrl ≠ some conversation.url) →
          (handleRemoveConversation now id lib st).1.closed_sessions = 0) ∧
        (handleRemoveConversation now id lib st).2.1 =
          (removeConversation now id lib).2) := by
  intro now id lib st
  constructor
  · intro hg
    simp [handleRemoveConversation, hg]
  · intro conversation hg
    have hrem : (removeConversation now id lib).1 = true := by
      simp [removeConversation, hg]
    have hh : handleRemoveConversation now id lib st =
        ({ success := true, error := none, removed := true,
           closed_sessions := (closeSessionsForConversation conversation.url st).1 },
         (removeConversation now id lib).2,
         (closeSessionsForConversation conversation.url st).2) := by
      simp [handleRemoveConversation, hg, hrem]
    rw [hh]
    refine ⟨rfl, rfl, ?_, ?_, rfl⟩
    · intro s hs hne
      show s ∈ st.sessions.filter _
      rw [List.mem_filter]
      refine ⟨hs, ?_⟩
      simp [hne]
    · intro hall
      show (st.sessions.filter (fun s => s.geminiUrl == some conversation.url)).length = 0
      rw [List.length_eq_zero]
      rw [List.filter_eq_nil_iff]
      intro s hs
      simp [hall s hs]

theorem claim_C3_witness :
    getConversation sampleLib "docs" = some sampleEntry ∧
      (handleRemoveConversation "t1" "docs" sampleLib sampleSM2).1 =
        { success := true, error := none, removed := true,
          closed_sessions := (sampleSM2.sessions.filter
            (fun s => s.geminiUrl == some sampleEntry.url)).length } :=
  ⟨by decide, ((claim_C3 "t1" "docs" sampleLib sampleSM2).2 sampleEntry (by decide)).1⟩

/-- C5: a failing `ask_question` call whose error is a `RateLimitError`
instance, or whose message contains "rate limit" case-insensitively, is
reported with the distinguished rate-limit message offering account-switch
(`re_auth`) and wait-and-retry guidance; every other failure is reported with
the generic error message.  The two outcomes are disjoint: a rate-limit
failure is never reported as the generic message. -/
theorem claim_C5 :
    ∀ e : JsError,
      (isRateLimitFailure e = true ↔
        (e.isRateLimitError = true ∨
          containsSubstr e.message.toLower "rate limit" = true)) ∧
      (isRateLimitFailure e = true →
        catchAskError e = RATE_LIMIT_REPORT_PREFIX ++ e.message ∧
        catchAskError e ≠ e.message) ∧
      (isRateLimitFailure e = false → catchAskError e = e.message) ∧
      (∀ (now : Nat) (nowIso freshId : String) (args : AskArgs) (lib lib2 : Library)
         (st st2 : SMState) (resolvedUrl : Option String) (session : Session),
        resolveConversationUrl nowIso args.gemini_url args.conversation_id lib =
          Except.ok (resolvedUrl, lib2) →
        getOrCreateSession now freshId args.session_id resolvedUrl st =
          Except.ok (session, st2) →
        (handleAskQuestion now nowIso freshId (Except.error e) args lib st).1 =
          { success := false, error := some (catchAskError e), data := none }) := by
  intro e
  refine ⟨?_, ?_, ?_, ?_⟩
  · simp [isRateLimitFailure]
  · intro h
    rw [catchAskError, if_pos h]
    exact ⟨rfl, append_left_ne _ _ (by decide)⟩
  · intro h
    rw [catchAskError, if_neg (by simp [h])]
  · intro now nowIso freshId args lib lib2 st st2 resolvedUrl session hres hsess
    simp [handleAskQuestion, hres, hsess]

theorem claim_C5_witness :
    isRateLimitFailure sampleRateError = true ∧
      catchAskError sampleRateError =
        RATE_LIMIT_REPORT_PREFIX ++ sampleRateError.message :=
  ⟨by decide, ((claim_C5 sampleRateError).2.1 (by decide)).1⟩

/-- C6: `performSetup` waits for interactive login under a bounded,
configurable deadline whose default is 2 minutes
(`DEFAULTS.autoLoginTimeoutMs = 120000` ms, overridable by the
`AUTO_LOGIN_TIMEOUT_MS` environment variable); when the deadline passes
without login state being captured, it returns `false` rather than throwing. -/
theorem claim_C6 :
    DEFAULTS.autoLoginTimeoutMs = 120000 ∧
    (∀ env : Env, env.AUTO_LOGIN_TIMEOUT_MS = none →
      (buildConfig env).autoLoginTimeoutMs = 120000) ∧
    (∀ (env : Env) (s : String) (n : Int), env.AUTO_LOGIN_TIMEOUT_MS = some s →
      jsParseInt s = some n → (buildConfig env).autoLoginTimeoutMs = n) ∧
    (∀ cfg : Config, performSetup cfg none = false) ∧
    (∀ (cfg : Config) (t : Nat), ¬((t : Int) < cfg.autoLoginTimeoutMs) →
      performSetup cfg (some t) = false) ∧
    (∀ (cfg : Config) (t : Nat), (t : Int) < cfg.autoLoginTimeoutMs →
      performSetup cfg (some t) = true) := by
  refine ⟨rfl, ?_, ?_, ?_, ?_, ?_⟩
  · intro env h
    simp [buildConfig, applyEnvOverrides, parseInteger, h, DEFAULTS]
  · intro env s n h1 h2
    simp [buildConfig, applyEnvOverrides, parseInteger, h1, h2]
  · intro cfg
    rfl
  · intro cfg t h
    simp [performSetup, h]
  · intro cfg t h
    simp [performSetup, h]

theorem claim_C6_witness :
    sampleEnv.AUTO_LOGIN_TIMEOUT_MS = none ∧
      (buildConfig sampleEnv).autoLoginTimeoutMs = 120000 ∧
      DEFAULTS.autoLoginTimeoutMs = 120000 :=
  ⟨rfl, claim_C6.2.1 sampleEnv rfl, claim_C6.1⟩

/-- C8: every successful `ask_question` call returns, not the raw session
answer, but the session's answer with trailing whitespace removed and the
fixed `FOLLOW_UP_REMINDER` text appended verbatim; the result always differs
from the raw answer. -/
theorem claim_C8 :
    ∀ (now : Nat) (nowIso freshId rawAnswer : String) (args : AskArgs)
      (lib lib2 : Library) (st st2 : SMState) (resolvedUrl : Option String)
      (session : Session),
      resolveConversationUrl nowIso args.gemini_url args.conversation_id lib =
        Except.ok (resolvedUrl, lib2) →
      getOrCreateSession now freshId args.session_id resolvedUrl st =
        Except.ok (session, st2) →
      ((handleAskQuestion now nowIso freshId (Except.ok rawAnswer) args lib st).1 =
        { success := true, error := none,
          data := some { question := args.question,
                         answer := jsTrimEnd rawAnswer ++ FOLLOW_UP_REMINDER,
                         session_id := session.id,
                         gemini_url := session.geminiUrl } } ∧
       jsTrimEnd rawAnswer ++ FOLLOW_UP_REMINDER ≠ rawAnswer) := by
  intro now nowIso freshId rawAnswer args lib lib2 st st2 resolvedUrl session hres hsess
  constructor
  · simp [handleAskQuestion, hres, hsess]
  · exact jsTrimEnd_append_ne FOLLOW_UP_REMINDER ⟨'E', by decide, by decide⟩ rawAnswer

theorem claim_C8_witness :
    resolveConversationUrl "t1" sampleAskArgs.gemini_url sampleAskArgs.conversation_id
        emptyLibrary = Except.ok (some "https://g/one", emptyLibrary) ∧
      getOrCreateSession 0 "fresh" sampleAskArgs.session_id (some "https://g/one")
        emptySM = Except.ok (sampleNewSession, sampleNewSM) ∧
      (handleAskQuestion 0 "t1" "fresh" (Except.ok "raw answer \n") sampleAskArgs
          emptyLibrary emptySM).1 =
        { success := true, error := none,
          data := some { question := sampleAskArgs.question,
                         answer := jsTrimEnd "raw answer \n" ++ FOLLOW_UP_REMINDER,
                         session_id := sampleNewSession.id,
                         gemini_url := sampleNewSession.geminiUrl } } :=
  ⟨by rfl, by rfl,
   (claim_C8 0 "t1" "fresh" "raw answer \n" sampleAskArgs emptyLibrary emptyLibrary
      emptySM sampleNewSM (some "https://g/one") sampleNewSession
      (by rfl) (by rfl)).1⟩

theorem getActive_self {lib : Library} {active : ConversationEntry}
    (h : getActiveConversation lib = some active) :
    getConversation lib active.id = some active := by
  rw [getActiveConversation] at h
  cases ha : lib.active_conversation_id with
  | none => rw [ha] at h; exact absurd h (by simp)
  | some aid =>
    rw [ha] at h
    have hid := getConversation_id h
    rw [hid]
    exact h

/-- C7: `ask_question` resolves the session's target URL with this precedence:
an explicit (truthy) `gemini_url` argument; else the URL of the library entry
named by `conversation_id`, where an id naming no entry fails with a
"Conversation not found in library" error before any session is created; else
the active library conversation's URL when one is set; else no URL. -/
theorem claim_C7 :
    (∀ (now : String) (gurl cid : Option String) (lib : Library),
      strTruthy gurl = true →
      resolveConversationUrl now gurl cid lib = Except.ok (gurl, lib)) ∧
    (∀ (now : String) (gurl : Option String) (cid : String) (lib : Library),
      strTruthy gurl = false → strTruthy (some cid) = true →
      getConversation lib cid = none →
      resolveConversationUrl now gurl (some cid) lib =
        Except.error ("Conversation not found in library: " ++ cid)) ∧
    (∀ (now : String) (gurl : Option String) (cid : String) (lib : Library)
       (conv : ConversationEntry),
      strTruthy gurl = false → strTruthy (some cid) = true →
      getConversation lib cid = some conv →
      resolveConversationUrl now gurl (some cid) lib =
        Except.ok (some conv.url, (incrementUseCount now cid lib).2)) ∧
    (∀ (now : Nat) (nowIso freshId : String) (ask : Except JsError String)
       (args : AskArgs) (cid : String) (lib : Library) (st : SMState),
      strTruthy args.gemini_url = false → args.conversation_id = some cid →
      strTruthy (some cid) = true → getConversation lib cid = none →
      handleAskQuestion now nowIso freshId ask args lib st =
        ({ success := false,
           error := some (catchAskError
             { isRateLimitError := false,
               message := "Conversation not found in library: " ++ cid }),
           data := none }, lib, st)) ∧
    (∀ (now : String) (gurl cid : Option String) (lib : Library)
       (active : ConversationEntry),
      strTruthy gurl = false → strTruthy cid = false →
      getActiveConversation lib = some active →
      resolveConversationUrl now gurl cid lib =
        Except.ok (some active.url, (incrementUseCount now active.id lib).2)) ∧
    (∀ (now : String) (gurl cid : Option String) (lib : Library),
      strTruthy gurl = false → strTruthy cid = false →
      getActiveConversation lib = none →
      resolveConversationUrl now gurl cid lib = Except.ok (gurl, lib)) := by
  refine ⟨?_, ?_, ?_, ?_, ?_, ?_⟩
  · intro now gurl cid lib h
    simp [resolveConversationUrl, h]
  · intro now gurl cid lib h1 h2 hg
    simp [resolveConversationUrl, h1, h2, incrementUseCount, hg]
  · intro now gurl cid lib conv h1 h2 hg
    simp [resolveConversationUrl, h1, h2, incrementUseCount, hg]
  · intro now nowIso freshId ask args cid lib st h1 hcid h2 hg
    have hres : resolveConversationUrl nowIso args.gemini_url args.conversation_id lib =
        Except.error ("Conversation not found in library: " ++ cid) := by
      rw [hcid]
      simp [resolveConversationUrl, h1, h2, incrementUseCount, hg]
    simp [handleAskQuestion, hres]
  · intro now gurl cid lib active h1 h2 hact
    have hg := getActive_self hact
    simp [resolveConversationUrl, h1, h2, hact, incrementUseCount, hg]
  · intro now gurl cid lib h1 h2 hact
    simp [resolveConversationUrl, h1, h2, hact]

theorem claim_C7_witness :
    strTruthy (none : Option String) = false ∧ strTruthy (some "docs") = true ∧
      getConversation sampleLib "docs" = some sampleEntry ∧
      resolveConversationUrl "t1" none (some "docs") sampleLib =
        Except.ok (some sampleEntry.url, (incrementUseCount "t1" "docs" sampleLib).2) :=
  ⟨rfl, by decide, by decide,
   claim_C7.2.2.1 "t1" none "docs" sampleLib sampleEntry rfl (by decide) (by decide)⟩

theorem cleanup_category_paths_present (m : String) (pl : Bool)
    (cfg : CleanupConfig) (disk : Disk) (c : CleanupCategory)
    (hc : c ∈ (getCleanupPaths m pl cfg disk).categories) :
    ∀ p ∈ c.paths, diskHas disk p = true := by
  intro p hp
  simp only [getCleanupPaths] at hc
  rcases List.mem_append.mp hc with h | h
  · simp only [List.mem_cons, List.not_mem_nil, or_false] at h
    rcases h with rfl | rfl | rfl | rfl <;>
      (simp only [mkCleanupCategory] at hp; exact (List.mem_filter.mp hp).2)
  · by_cases hpl : pl = true
    · rw [if_pos hpl] at h
      exact absurd h (List.not_mem_nil c)
    · rw [if_neg hpl] at h
      simp only [List.mem_singleton] at h
      subst h
      simp only [mkCleanupCategory] at hp
      exact (List.mem_filter.mp hp).2

theorem mem_totalPaths {m : String} {pl : Bool} {cfg : CleanupConfig}
    {disk : Disk} {p : String}
    (hp : p ∈ (getCleanupPaths m pl cfg disk).totalPaths) :
    ∃ c ∈ (getCleanupPaths m pl cfg disk).categories, p ∈ c.paths := by
  have : (getCleanupPaths m pl cfg disk).totalPaths =
      ((getCleanupPaths m pl cfg disk).categories.map
        (fun c => c.paths)).flatten := rfl
  rw [this] at hp
  simp only [List.mem_flatten, List.mem_map] at hp
  obtain ⟨l, ⟨c, hc, rfl⟩, hpl⟩ := hp
  exact ⟨c, hc, hpl⟩

/-- C4: `cleanup_data` with `confirm = false` only previews (`getCleanupPaths`)
and deletes nothing (the disk is unchanged, so every enumerated path still
exists); with `preserveLibrary = true` the enumeration contains no
library-file path.  With `confirm = true` it invokes `performCleanup`, which
attempts exactly the enumerated paths (deleting all of them when nothing
fails, touching no other file) and reports an aggregate success flag that is
true iff `failedPaths` is empty. -/
theorem claim_C4 :
    (∀ (pl : Bool) (cfg : CleanupConfig) (disk : Disk),
      (handleCleanupData false pl cfg disk).2 = disk ∧
      (handleCleanupData false pl cfg disk).1.preview =
        some (getCleanupPaths "deep" pl cfg disk) ∧
      (handleCleanupData false pl cfg disk).1.result = none) ∧
    (∀ (pl : Bool) (cfg : CleanupConfig) (disk : Disk) (p : String),
      p ∈ (getCleanupPaths "deep" pl cfg disk).totalPaths →
      diskHas ((handleCleanupData false pl cfg disk).2) p = true) ∧
    (∀ (cfg : CleanupConfig) (disk : Disk),
      libraryFilePath cfg ∉ (getCleanupPaths "deep" true cfg disk).totalPaths) ∧
    (∀ (pl : Bool) (cfg : CleanupConfig) (disk : Disk),
      (handleCleanupData true pl cfg disk).1.result =
        some (performCleanup "deep" pl cfg disk).1 ∧
      (handleCleanupData true pl cfg disk).2 =
        (performCleanup "deep" pl cfg disk).2 ∧
      ((handleCleanupData true pl cfg disk).1.success = true ↔
        (performCleanup "deep" pl cfg disk).1.failedPaths = [])) ∧
    (∀ (pl : Bool) (cfg : CleanupConfig) (disk : Disk),
      (performCleanup "deep" pl cfg disk).1.deletedPaths =
        (getCleanupPaths "deep" pl cfg disk).totalPaths.filter
          (fun p => !(disk.locked.contains p)) ∧
      (performCleanup "deep" pl cfg disk).1.failedPaths =
        (getCleanupPaths "deep" pl cfg disk).totalPaths.filter
          (fun p => disk.locked.contains p) ∧
      ((performCleanup "deep" pl cfg disk).1.success = true ↔
        (performCleanup "deep" pl cfg disk).1.failedPaths = []) ∧
      (∀ f ∈ disk.files, f.1 ∉ (getCleanupPaths "deep" pl cfg disk).totalPaths →
        f ∈ ((performCleanup "deep" pl cfg disk).2).files) ∧
      ((performCleanup "deep" pl cfg disk).1.failedPaths = [] →
        ((performCleanup "deep" pl cfg disk).2).files =
          disk.files.filter (fun f =>
            !((getCleanupPaths "deep" pl cfg disk).totalPaths.contains f.1)))) := by
  refine ⟨?_, ?_, ?_, ?_, ?_⟩
  · intro pl cfg disk
    exact ⟨rfl, rfl, rfl⟩
  · intro pl cfg disk p hp
    obtain ⟨c, hc, hpc⟩ := mem_totalPaths hp
    exact cleanup_category_paths_present "deep" pl cfg disk c hc p hpc
  · intro cfg disk hmem
    obtain ⟨c, hc, hpc⟩ := mem_totalPaths hmem
    simp [getCleanupPaths] at hc
    rcases hc with rfl | rfl | rfl | rfl <;>
      simp only [mkCleanupCategory] at hpc
    · have h2 := (List.mem_filter.mp hpc).1
      simp only [List.mem_singleton, libraryFilePath, browserStateDir] at h2
      exact strAppend_right_ne cfg.dataDir (by decide) h2
    · have h2 := (List.mem_filter.mp hpc).1
      simp only [List.mem_singleton, libraryFilePath, chromeProfileDir] at h2
      exact strAppend_right_ne cfg.dataDir (by decide) h2
    · have h2 := (List.mem_filter.mp hpc).1
      simp only [List.mem_singleton, libraryFilePath, chromeInstancesDir] at h2
      exact strAppend_right_ne cfg.dataDir (by decide) h2
    · have h2 := (List.mem_filter.mp hpc).1
      simp only [List.mem_singleton, libraryFilePath, authStateFilePath] at h2
      exact strAppend_right_ne cfg.dataDir (by decide) h2
  · intro pl cfg disk
    refine ⟨rfl, rfl, ?_⟩
    show (performCleanup "deep" pl cfg disk).1.success = true ↔ _
    show ((getCleanupPaths "deep" pl cfg disk).totalPaths.filter
      (fun p => disk.locked.contains p)).isEmpty = true ↔ _
    exact List.isEmpty_iff
  · intro pl cfg disk
    refine ⟨rfl, rfl, List.isEmpty_iff, ?_, ?_⟩
    · intro f hf hnp
      show f ∈ disk.files.filter _
      rw [List.mem_filter]
      refine ⟨hf, ?_⟩
      show (!((getCleanupPaths "deep" pl cfg disk).totalPaths.filter
        (fun p => !(disk.locked.contains p))).contains f.1) = true
      simp
      exact Or.inl hnp
    · intro hfail
      have hlocked : ∀ p ∈ (getCleanupPaths "deep" pl cfg disk).totalPaths,
          ¬(disk.locked.contains p = true) := by
        rw [← List.filter_eq_nil_iff]
        exact hfail
      have hdel : (getCleanupPaths "deep" pl cfg disk).totalPaths.filter
          (fun p => !(disk.locked.contains p)) =
            (getCleanupPaths "deep" pl cfg disk).totalPaths := by
        rw [List.filter_eq_self]
        intro p hp
        have := hlocked p hp
        simpa using this
      show disk.files.filter (fun f =>
          !(((getCleanupPaths "deep" pl cfg disk).totalPaths.filter
            (fun p => !(disk.locked.contains p))).contains f.1)) = _
      rw [hdel]

theorem claim_C4_witness :
    (handleCleanupData false true sampleCleanupCfg sampleDisk).2 = sampleDisk ∧
      libraryFilePath sampleCleanupCfg ∉
        (getCleanupPaths "deep" true sampleCleanupCfg sampleDisk).totalPaths ∧
      ((handleCleanupData true false sampleCleanupCfg sampleDisk).1.success = true ↔
        (performCleanup "deep" false sampleCleanupCfg sampleDisk).1.failedPaths = []) :=
  ⟨(claim_C4.1 true sampleCleanupCfg sampleDisk).1,
   claim_C4.2.2.1 sampleCleanupCfg sampleDisk,
   (claim_C4.2.2.2.1 false sampleCleanupCfg sampleDisk).2.2⟩

/-- C9: in every library state reachable through the public operations from a
state satisfying it, `active_conversation_id` is either none or the id of a
conversation present in the list; `selectConversation` throws on an unknown
id, `removeConversation` reassigns the active id to the first remaining
conversation (or none) when the active entry is removed, and
`addConversation` sets the sole entry active when the library was empty. -/
theorem claim_C9 :
    (∀ (lib : Library) (ops : List LibOp),
      activeValidB lib = true → activeValidB (applyOps lib ops) = true) ∧
    (∀ (now id : String) (lib : Library), getConversation lib id = none →
      selectConversation now id lib =
        Except.error ("Conversation not found: " ++ id)) ∧
    (∀ (now id : String) (lib : Library),
      lib.active_conversation_id = some id →
      (getConversation lib id).isSome = true →
      ((removeConversation now id lib).2).active_conversation_id =
        ((lib.conversations.filter (fun n => !(n.id == id))).head?).map
          (fun c => c.id)) ∧
    (∀ (now : String) (input : AddConversationInput) (lib : Library),
      lib.conversations = [] →
      ((addConversation now input lib).2).active_conversation_id =
        some (addConversation now input lib).1.id) := by
  refine ⟨activeValid_applyOps, ?_, ?_, ?_⟩
  · intro now id lib hg
    simp [selectConversation, hg]
  · intro now id lib ha hs
    cases hg : getConversation lib id with
    | none => rw [hg] at hs; exact absurd hs (by simp)
    | some conv =>
      simp only [removeConversation, hg, ha, beq_self_eq_true, if_true]
      cases hf : lib.conversations.filter (fun n => !(n.id == id)) with
      | nil => simp
      | cons c rest => simp
  · intro now input lib he
    simp [addConversation, he]

theorem claim_C9_witness :
    activeValidB sampleLib = true ∧
      activeValidB (applyOps sampleLib sampleOps) = true :=
  ⟨by decide, claim_C9.1 sampleLib sampleOps (by decide)⟩

/-- C10: conversation ids are pairwise distinct in every library state
reachable from one with distinct ids: `generateId` derives a slug from the
name and, while it collides with an existing id, appends `-1`, `-2`, ...
until the id is fresh, and no other operation changes an entry's id. -/
theorem claim_C10 :
    (∀ (lib : Library) (ops : List LibOp),
      (libIds lib).Nodup → (libIds (applyOps lib ops)).Nodup) ∧
    (∀ (conversations : List ConversationEntry) (name : String),
      generateId conversations name ∉ conversations.map (fun n => n.id)) ∧
    (∀ (conversations : List ConversationEntry) (name : String),
      conversations.any (fun n => n.id == slugBase name) = false →
      generateId conversations name = slugBase name) ∧
    (∀ (conversations : List ConversationEntry) (name : String),
      conversations.any (fun n => n.id == slugBase name) = true →
      ∃ k, 1 ≤ k ∧
        generateId conversations name = slugBase name ++ "-" ++ Nat.repr k) ∧
    (∀ (now id : String) (lib : Library) (e : ConversationEntry) (lib2 : Library),
      selectConversation now id lib = Except.ok (e, lib2) →
      libIds lib2 = libIds lib) ∧
    (∀ (now : String) (input : UpdateConversationInput) (lib : Library)
       (e : ConversationEntry) (lib2 : Library),
      updateConversation now input lib = Except.ok (e, lib2) →
      libIds lib2 = libIds lib) ∧
    (∀ (now id : String) (lib : Library),
      libIds ((incrementUseCount now id lib).2) = libIds lib) := by
  refine ⟨nodup_applyOps, generateId_fresh, ?_, ?_,
    fun now id lib e lib2 h => (libIds_selectConversation h).1,
    fun now input lib e lib2 h => (libIds_updateConversation h).1,
    fun now id lib => (libIds_incrementUseCount now id lib).1⟩
  · intro conversations name h
    rw [generateId, if_neg (by simp [h])]
  · intro conversations name h
    rw [generateId, if_pos h]
    exact generateIdAux_shape conversations (slugBase name) (conversations.length + 1) 1

theorem claim_C10_witness :
    (libIds sampleLib).Nodup ∧ (libIds (applyOps sampleLib sampleOps)).Nodup :=
  ⟨by decide, claim_C10.1 sampleLib sampleOps (by decide)⟩

/-- C1: with configured maximum M, creating M distinct sessions from an empty
manager succeeds with all M sessions idle; a further creation while all
registered sessions are idle succeeds by evicting the least-recently-active
idle session; a further creation while all registered sessions are busy fails
with `ResourceExhausted`. -/
theorem claim_C1 :
    (∀ M T : Nat,
      createSessions ((List.range M).map (fun k => "session-" ++ Nat.repr k))
          { sessions := [], maxSessions := M, sessionTimeout := T } =
        Except.ok
          { sessions := ((List.range M).map
              (fun k => "session-" ++ Nat.repr k)).map mkFreshSession,
            maxSessions := M, sessionTimeout := T } ∧
      (((List.range M).map (fun k => "session-" ++ Nat.repr k)).map
          mkFreshSession).length = M ∧
      (∀ s ∈ ((List.range M).map (fun k => "session-" ++ Nat.repr k)).map
          mkFreshSession, s.status = SessionStatus.idle)) ∧
    (∀ (st : SMState) (i : String) (now : Nat) (url : Option String) (fid : String),
      st.maxSessions ≤ st.sessions.length →
      (∀ s ∈ st.sessions, s.id ≠ i) →
      (∀ s ∈ st.sessions, s.status = SessionStatus.idle) →
      st.sessions ≠ [] →
      ∃ victim new2 st2,
        getOrCreateSession now fid (some i) url st = Except.ok (new2, st2) ∧
        victim ∈ st.sessions ∧ victim.status = SessionStatus.idle ∧
        (∀ s ∈ st.sessions, victim.lastActivity ≤ s.lastActivity) ∧
        st2.sessions =
          st.sessions.filter (fun s => !(s.id == victim.id)) ++ [new2] ∧
        new2.status = SessionStatus.idle ∧ new2.id = i) ∧
    (∀ (st : SMState) (id? : Option String) (now : Nat) (url : Option String)
       (fid : String),
      (id?.bind (fun i => st.sessions.find? (fun s => s.id == i))) = none →
      st.maxSessions ≤ st.sessions.length →
      (∀ s ∈ st.sessions, s.status = SessionStatus.busy) →
      getOrCreateSession now fid id? url st =
        Except.error SMError.ResourceExhausted) := by
  refine ⟨?_, ?_, ?_⟩
  · intro M T
    refine ⟨?_, ?_, ?_⟩
    · have hok := createSessions_ok
        ((List.range M).map (fun k => "session-" ++ Nat.repr k))
        { sessions := [], maxSessions := M, sessionTimeout := T }
        (List.Nodup.map (appendRepr_injective "session-") (List.nodup_range M))
        (fun i hi s hs => absurd hs (List.not_mem_nil s))
        (by simp)
      simpa using hok
    · simp
    · intro s hs
      simp only [List.mem_map] at hs
      obtain ⟨i, hi, rfl⟩ := hs
      rfl
  · intro st i now url fid hcap hids hidle hne
    obtain ⟨s0, hs0⟩ : ∃ s0, s0 ∈ st.sessions := by
      cases hl : st.sessions with
      | nil => exact absurd hl hne
      | cons a l => exact ⟨a, hl ▸ List.mem_cons_self a l⟩
    obtain ⟨victim, hv⟩ := lruIdle_isSome hs0 (hidle s0 hs0)
    obtain ⟨hvm, hvidle, hvmin⟩ := lruIdle_spec hv
    have hfind2 : st.sessions.find? (fun s => s.id == i) = none := by
      rw [List.find?_eq_none]
      intro s hs
      simpa using hids s hs
    have hrun : getOrCreateSession now fid (some i) url st =
        Except.ok
          ({ id := i, createdAt := now, lastActivity := now, messageCount := 0,
             geminiUrl := url, status := SessionStatus.idle },
           { st with sessions :=
               st.sessions.filter (fun s => !(s.id == victim.id)) ++
                 [{ id := i, createdAt := now, lastActivity := now,
                    messageCount := 0, geminiUrl := url,
                    status := SessionStatus.idle }] }) := by
      simp [getOrCreateSession, hfind2, hcap, hv]
    exact ⟨victim, _, _, hrun, hvm, hvidle,
      fun s hs => hvmin s hs (hidle s hs), rfl, rfl, rfl⟩
  · intro st id? now url fid hmiss hcap hbusy
    have hlru : lruIdle st.sessions = none := by
      cases hl : lruIdle st.sessions with
      | none => rfl
      | some v =>
        obtain ⟨hvm, hvidle, -⟩ := lruIdle_spec hl
        rw [hbusy v hvm] at hvidle
        exact SessionStatus.noConfusion hvidle
    simp [getOrCreateSession, hmiss, hcap, hlru]

theorem claim_C1_witness :
    (createSessions ((List.range 2).map (fun k => "session-" ++ Nat.repr k))
        { sessions := [], maxSessions := 2, sessionTimeout := 900 } =
      Except.ok
        { sessions := ((List.range 2).map
            (fun k => "session-" ++ Nat.repr k)).map mkFreshSession,
          maxSessions := 2, sessionTimeout := 900 }) ∧
    sampleFullSM.maxSessions ≤ sampleFullSM.sessions.length ∧
    (∃ victim new2 st2,
      getOrCreateSession 30 "f" (some "s3") none sampleFullSM =
        Except.ok (new2, st2) ∧
      victim ∈ sampleFullSM.sessions ∧ victim.status = SessionStatus.idle ∧
      (∀ s ∈ sampleFullSM.sessions, victim.lastActivity ≤ s.lastActivity) ∧
      st2.sessions =
        sampleFullSM.sessions.filter (fun s => !(s.id == victim.id)) ++ [new2] ∧
      new2.status = SessionStatus.idle ∧ new2.id = "s3") ∧
    getOrCreateSession 30 "f" none none sampleBusyFullSM =
      Except.error SMError.ResourceExhausted :=
  ⟨((claim_C1.1 2 900).1), by decide,
   claim_C1.2.1 sampleFullSM "s3" 30 none "f" (by decide) (by decide) (by decide)
     (by decide),
   claim_C1.2.2 sampleBusyFullSM none 30 none "f" rfl (by decide) (by decide)⟩
